import Mathlib

/-!
# Verification of the parallel multi-model streaming chat core

A shallow embedding, in Lean 4, of the parts of the `openrouter-cli`
repository that the specification's claims are about:

* the conversation data model (`ChatMessage`) and the two per-model
  history builders (`conversationForModel` from `src/lib/chat.ts` /
  `src/lib/parallel-chat.ts`, and `conversationForModelInk` from
  `src/components/ChatInterface.tsx`);
* the parallel turn of `ParallelChatInterface.sendMessage`
  (`src/lib/parallel-chat.ts`), with the set of in-flight model streams
  modelled as an oracle from model id to its delivered chunks and final
  outcome, and the nondeterministic completion order of the streams
  modelled as an explicit list of model ids;
* the transport client `OpenRouterClient` (`src/lib/api.ts`):
  `makeRequest` with its retry / backoff loop, `getModels`, and the
  SSE line processing of `streamChat`;
* the model directory cache `ModelManager.fetchModels`
  (`src/lib/models.ts`);
* the request-body construction of `streamChat` together with the
  profile data fed to it by the chat engines;
* the API-key storage cipher of `src/lib/utils.ts` (AES-256-CBC with a
  fixed key and an all-zero IV), with the AES block permutation — a
  Node `crypto` library primitive external to the repository — kept
  abstract, and the CBC chaining and PKCS#7 padding that the fixed-IV
  construction composes modelled concretely.

External effects (HTTP fetch, JSON parsing, stream scheduling) are
modelled as explicit oracles passed to the embedded functions, so every
definition is executable on concrete inputs.
-/

/-! ## Conversation data model

`ChatMessage` from `src/types/index.ts`:
`{ role: 'user' | 'assistant' | 'system'; content: string; model?: string; name?: string }`.
-/

inductive Role where
  | user
  | assistant
  | system
deriving DecidableEq, Repr

structure ChatMessage where
  role : Role
  content : String
  model : Option String := none
  name : Option String := none
deriving DecidableEq, Repr

namespace ChatMessage

/-- The user message pushed for the current turn:
`{ role: 'user' as const, content: message }`. -/
def userMsg (content : String) : ChatMessage :=
  { role := Role.user, content := content }

end ChatMessage

/-! ## Per-model view builders -/



/-- The per-model history filter of `ChatInterface.streamModelResponse`
(`src/lib/chat.ts` lines 241–243) and of
`ParallelChatInterface.sendMessage` (`src/lib/parallel-chat.ts` lines
105–107):
`this.conversation.filter(msg => msg.role !== 'assistant' || msg.model === model)`. -/
def conversationForModel (conversation : List ChatMessage) (model : String) :
    List ChatMessage :=
  conversation.filter fun msg => msg.role != Role.assistant || msg.model == some model

/-- The per-model history builder of the Ink component's `sendMessage`
(`src/components/ChatInterface.tsx` lines 60–72): it walks the
conversation pushing user messages and assistant messages whose `model`
matches, then pushes the current user message.  (A `forEach` that
conditionally pushes is a filter.) -/
def conversationForModelInk (conversation : List ChatMessage) (model : String)
    (message : String) : List ChatMessage :=
  (conversation.filter fun msg =>
      msg.role == Role.user || (msg.role == Role.assistant && msg.model == some model))
    ++ [ChatMessage.userMsg message]

/-- Modelled from the spec's words (§3, §8), for comparison with the
source filters: the view for model `M` keeps every user message, every
system message, and exactly the assistant messages whose `model == M`,
in original order. -/
def viewForSpec (conversation : List ChatMessage) (model : String) :
    List ChatMessage :=
  conversation.filter fun msg =>
    msg.role == Role.user || msg.role == Role.system ||
      (msg.role == Role.assistant && msg.model == some model)



/-! ## Parallel turn (`ParallelChatInterface.sendMessage`, `src/lib/parallel-chat.ts`)

Each model's `streamChat` call is modelled by the chunks it delivers
before it either ends cleanly or throws: `ModelStream`.  The engine's
`for await` loop accumulates `fullResponse` as the concatenation of the
delivered chunks; on clean completion the task appends the finalized
assistant message to `this.conversation` and returns
`{ model, content }`, on a throw it appends nothing and returns
`{ model, content: '', error }`.  Appends to the shared conversation
happen at stream-completion time, so their order is the completion
order of the streams — modelled as an explicit list of model ids.
`Promise.all` returns the outcomes in the order of `activeModels`.
-/



/-- One model's stream for one turn: the chunks delivered, and `none`
for a clean end of stream or `some err` for a throw after the chunks. -/
structure ModelStream where
  chunks : List String
  outcome : Option String
deriving DecidableEq, Repr

/-- The finalized assistant message a successful task pushes:
`{ role: 'assistant', content: fullResponse, model }`. -/
def mkAssistantMessage (model : String) (streams : String → ModelStream) :
    ChatMessage :=
  { role := Role.assistant,
    content := String.join (streams model).chunks,
    model := some model }

/-- The per-model accumulator entry of the Ink component's
`StreamingData` (`src/components/ChatInterface.tsx` lines 16–22):
`{ content: string; isStreaming: boolean; error?: string }`. -/
structure StreamingDataEntry where
  content : String
  isStreaming : Bool
  error : Option String
deriving DecidableEq, Repr

/-- The accumulator's final state for one model, per
`src/components/ChatInterface.tsx` lines 96–118: on clean completion
`{ content: fullResponse, isStreaming: false }`, on a throw
`{ content: '', isStreaming: false, error: message }`. -/
def finalStreamingData (streams : String → ModelStream) (model : String) :
    StreamingDataEntry :=
  match (streams model).outcome with
  | none => { content := String.join (streams model).chunks,
              isStreaming := false, error := none }
  | some e => { content := "", isStreaming := false, error := some e }

/-- The value a per-model task resolves with
(`src/lib/parallel-chat.ts` lines 140 and 144): `{ model, content }` on
success, `{ model, content: '', error }` on failure. -/
structure TaskOutcome where
  model : String
  content : String
  error : Option String
deriving DecidableEq, Repr

/-- The final conversation after the turn: starting from the log as it
stands after the user message was pushed, each stream that completes
cleanly appends its finalized assistant message at its completion slot;
a failed stream appends nothing (`src/lib/parallel-chat.ts` lines
133–145).  `order` is the completion order of the streams. -/
def runTurnConv (conv : List ChatMessage) (streams : String → ModelStream)
    (order : List String) : List ChatMessage :=
  order.foldl
    (fun acc m =>
      match (streams m).outcome with
      | none => acc ++ [mkAssistantMessage m streams]
      | some _ => acc)
    conv

/-- The assistant messages appended during the turn, in completion
order. -/
def turnAppends (streams : String → ModelStream) (order : List String) :
    List ChatMessage :=
  order.filterMap fun m =>
    match (streams m).outcome with
    | none => some (mkAssistantMessage m streams)
    | some _ => none

/-- The outcome set `Promise.all` resolves with, in `activeModels`
order — one entry per model, delivered only once every task has
settled. -/
def runTurnOutcomes (models : List String) (streams : String → ModelStream) :
    List TaskOutcome :=
  models.map fun m =>
    match (streams m).outcome with
    | none => { model := m, content := String.join (streams m).chunks, error := none }
    | some e => { model := m, content := "", error := some e }





/-! ## Transport client: `OpenRouterClient.makeRequest` (`src/lib/api.ts`)

`makeRequest` is generic in the JSON payload type (`makeRequest<T>`).
The `fetch` call of attempt `i` is modelled by an oracle
`fetches : Nat → Except String (HttpResponse α)`: `Except.error`
is a rejected fetch (network failure), `Except.ok` a settled HTTP
response carrying its status, its parsed `Retry-After` header (seconds,
already `parseInt`-ed), its text body and its parsed JSON payload.
The embedding additionally counts the fetch attempts performed and sums
the milliseconds passed to `delay`, which the claims are about.
-/


def MAX_RETRIES : Nat := 3

def INITIAL_RETRY_DELAY : Nat := 1000

structure HttpResponse (α : Type) where
  status : Nat
  retryAfter : Option Nat := none
  body : String := ""
  json : α
deriving Repr

/-- `response.ok`: status in the inclusive range 200–299. -/
def responseOk (status : Nat) : Bool :=
  200 ≤ status && status ≤ 299

/-- `new Error(`API Error (${response.status}): ${error}`)`. -/
def apiErrorMsg (status : Nat) (body : String) : String :=
  "API Error (" ++ toString status ++ "): " ++ body

/-- The 429 backoff: `retryAfter ? parseInt(retryAfter) * 1000 :
INITIAL_RETRY_DELAY * Math.pow(2, attempt)`. -/
def backoff429 (retryAfter : Option Nat) (attempt : Nat) : Nat :=
  match retryAfter with
  | some ra => ra * 1000
  | none => INITIAL_RETRY_DELAY * 2 ^ attempt

structure RequestOutcome (α : Type) where
  result : Except String α
  attempts : Nat
  totalWaitMs : Nat
deriving Repr

/-- The retry loop of `makeRequest`.  `remaining` is the number of
iterations the `for` loop still has (it starts at `MAX_RETRIES` and the
loop guard `attempt < MAX_RETRIES` is `remaining > 0`); `attempt` is
the loop counter, which drives the backoff exponents.  A 429 response
waits the computed backoff and continues without touching `lastError`;
a non-ok response raises the `ApiError`, which the generic `catch`
records in `lastError`, waiting `INITIAL_RETRY_DELAY * 2 ^ attempt`
unless this was the final attempt; a rejected fetch takes the same
`catch` path; an ok response returns its JSON payload at once.  When
the loop exhausts its iterations the call fails with `lastError`, or
with `'Request failed after maximum retries'` when no attempt ever
threw. -/
def makeRequestFrom (fetches : Nat → Except String (HttpResponse α)) :
    (remaining attempt : Nat) → Option String → RequestOutcome α
  | 0, _, lastError =>
    { result := Except.error (lastError.getD "Request failed after maximum retries"),
      attempts := 0, totalWaitMs := 0 }
  | remaining + 1, attempt, lastError =>
    match fetches attempt with
    | Except.error e =>
      let waitMs :=
        if attempt < MAX_RETRIES - 1 then INITIAL_RETRY_DELAY * 2 ^ attempt else 0
      let rest := makeRequestFrom fetches remaining (attempt + 1) (some e)
      { result := rest.result, attempts := rest.attempts + 1,
        totalWaitMs := rest.totalWaitMs + waitMs }
    | Except.ok resp =>
      if resp.status == 429 then
        let rest := makeRequestFrom fetches remaining (attempt + 1) lastError
        { result := rest.result, attempts := rest.attempts + 1,
          totalWaitMs := rest.totalWaitMs + backoff429 resp.retryAfter attempt }
      else if !(responseOk resp.status) then
        let e := apiErrorMsg resp.status resp.body
        let waitMs :=
          if attempt < MAX_RETRIES - 1 then INITIAL_RETRY_DELAY * 2 ^ attempt else 0
        let rest := makeRequestFrom fetches remaining (attempt + 1) (some e)
        { result := rest.result, attempts := rest.attempts + 1,
          totalWaitMs := rest.totalWaitMs + waitMs }
      else
        { result := Except.ok resp.json, attempts := 1, totalWaitMs := 0 }

/-- `makeRequest`: the loop started at attempt 0 with no recorded
error. -/
def makeRequest (fetches : Nat → Except String (HttpResponse α)) :
    RequestOutcome α :=
  makeRequestFrom fetches MAX_RETRIES 0 none





/-! ## SSE stream processing: `OpenRouterClient.streamChat` (`src/lib/api.ts`)

The buffered reader splits the byte stream into complete lines; the
per-line processing loop is embedded here over the resulting line list.
`JSON.parse` plus the decoded chunk shape
`{choices:[{delta:{content?}}]}` is modelled by an oracle
`parse : String → Option StreamChunk`, where `none` is a
`JSON.parse` throw — caught by the `try/catch` around the chunk
decoding, which logs and skips the line.
-/



/-- JS `String.prototype.trim()`: strip whitespace from both ends.
(A runtime string primitive, modelled over the character list so that
it evaluates by reduction.) -/
def jsTrim (s : String) : String :=
  String.mk (((s.data.dropWhile Char.isWhitespace).reverse.dropWhile
      Char.isWhitespace).reverse)

/-- JS `String.prototype.startsWith(p)`. -/
def jsStartsWith (s p : String) : Bool :=
  p.data.isPrefixOf s.data

/-- JS `String.prototype.slice(n)` for nonnegative `n`. -/
def jsSlice (s : String) (n : Nat) : String :=
  String.mk (s.data.drop n)

structure ChunkDelta where
  content : Option String
deriving DecidableEq, Repr

structure ChunkChoice where
  delta : Option ChunkDelta
deriving DecidableEq, Repr

structure StreamChunkShape where
  choices : List ChunkChoice
deriving DecidableEq, Repr

/-- What one line of the event stream contributes: nothing, one yielded
token, or the clean `[DONE]` termination of the generator. -/
inductive LineEffect where
  | skip
  | token (s : String)
  | done
deriving DecidableEq, Repr

/-- The body of `streamChat`'s `for (const line of lines)` loop
(`src/lib/api.ts`): blank lines and `': '` comment lines are skipped;
a `'data: '` line is sliced after the prefix; the `[DONE]` sentinel
ends the generator cleanly; otherwise the payload is JSON-parsed — a
parse failure is caught, logged and skipped — and the decoded delta
content is yielded iff it is a non-empty string (`if (content)`;
an absent field and the empty string are both falsy). -/
def processLine (parse : String → Option StreamChunkShape) (line : String) :
    LineEffect :=
  if jsTrim line = "" then LineEffect.skip
  else if jsStartsWith line ": " then LineEffect.skip
  else if jsStartsWith line "data: " then
    let data := jsSlice line 6
    if data = "[DONE]" then LineEffect.done
    else
      match parse data with
      | none => LineEffect.skip
      | some chunk =>
        match chunk.choices.head? with
        | none => LineEffect.skip
        | some choice =>
          match choice.delta with
          | none => LineEffect.skip
          | some delta =>
            match delta.content with
            | none => LineEffect.skip
            | some c => if c = "" then LineEffect.skip else LineEffect.token c
  else LineEffect.skip

/-- The whole line loop: the tokens yielded in order, and whether the
sequence was ended by the `[DONE]` sentinel (`true`) or by the input
running out (`false`) — both clean, non-error terminations. -/
def processLines (parse : String → Option StreamChunkShape) :
    List String → List String × Bool
  | [] => ([], false)
  | line :: rest =>
    match processLine parse line with
    | LineEffect.done => ([], true)
    | LineEffect.skip => processLines parse rest
    | LineEffect.token c =>
      let r := processLines parse rest
      (c :: r.1, r.2)





/-! ## Request body construction: `streamChat` (`src/lib/api.ts`)

JS numbers are modelled as rationals (the relevant domain — profile
temperatures in `[0,2]` and positive integer token limits — has no
`NaN`/`Infinity`).  The `a || b` defaulting used by the source is JS
truthiness on an optional number: `undefined` and `0` both fall back to
the default.
-/



/-- JS `options.x || default` for an optional number: `undefined` and
`0` are falsy. -/
def jsNumOr (v : Option ℚ) (d : ℚ) : ℚ :=
  match v with
  | none => d
  | some x => if x = 0 then d else x

/-- `ChatOptions` from `src/types/index.ts`:
`{ temperature?: number; maxTokens?: number; stream?: boolean }`. -/
structure ChatOptions where
  temperature : Option ℚ := none
  maxTokens : Option ℚ := none
  stream : Option Bool := none

/-- The JSON body `streamChat` sends:
`{ model, messages, temperature: options.temperature || 0.7,
max_tokens: options.maxTokens || 4000, stream: true }`. -/
structure ChatRequestBody where
  model : String
  messages : List ChatMessage
  temperature : ℚ
  max_tokens : ℚ
  stream : Bool

def streamChatBody (messages : List ChatMessage) (model : String)
    (options : ChatOptions) : ChatRequestBody :=
  { model := model,
    messages := messages,
    temperature := jsNumOr options.temperature (7 / 10),
    max_tokens := jsNumOr options.maxTokens 4000,
    stream := true }

/-- A resolved `Profile` (`src/types/index.ts`):
`{ models: string[]; temperature: number; maxTokens: number }`. -/
structure Profile where
  models : List String
  temperature : ℚ
  maxTokens : ℚ

/-- The options every chat engine passes to `streamChat`
(`src/lib/chat.ts` lines 251–259, `src/lib/parallel-chat.ts` lines
111–119, `src/components/ChatInterface.tsx` lines 74–82):
`{ temperature: profile.temperature, maxTokens: profile.maxTokens,
stream: true }`. -/
def engineStreamOptions (profile : Profile) : ChatOptions :=
  { temperature := some profile.temperature,
    maxTokens := some profile.maxTokens,
    stream := some true }

/-- The request body of the per-model request the engine opens. -/
def engineRequestBody (profile : Profile) (model : String)
    (view : List ChatMessage) : ChatRequestBody :=
  streamChatBody view model (engineStreamOptions profile)



/-! ## Model directory: `OpenRouterClient.getModels` and
`ModelManager.fetchModels` (`src/lib/api.ts`, `src/lib/models.ts`) -/


structure Model where
  id : String
  name : Option String := none
deriving DecidableEq, Repr

/-- The `GET /models` payload `{ data: Model[] }` (`data` may be
missing from a malformed payload: `response.data || []`). -/
structure ModelsResponse where
  data : Option (List Model)
deriving Repr

/-- `OpenRouterClient.getModels`: runs `makeRequest('/models')`; on
success returns `response.data || []`; any thrown error is caught,
logged, and replaced by `[]`. -/
def getModels (fetches : Nat → Except String (HttpResponse ModelsResponse)) :
    List Model :=
  match (makeRequest fetches).result with
  | Except.ok json => json.data.getD []
  | Except.error _ => []

/-- `ModelManager`'s cache fields: `models` and `lastFetch`
(milliseconds timestamp or `null`). -/
structure ModelManagerState where
  models : List Model
  lastFetch : Option Nat
deriving DecidableEq, Repr

/-- `cacheTimeout = 300000` — 5 minutes. -/
def cacheTimeout : Nat := 300000

/-- `ModelManager.fetchModels(force)` at time `now`: if `!force &&
this.lastFetch && Date.now() - this.lastFetch < this.cacheTimeout`,
return the cached list without fetching; otherwise fetch through
`getModels`, cache the result with `lastFetch = now`, and return it.
The TS method is `async` and its `try/catch` rethrows a fetch failure
(`throw error`), which the `Except` codomain records — but `getModels`
itself never rejects, so no run of the body ever reaches that `catch`.
The `Bool` in the result records whether a network fetch was
performed. -/
def fetchModels (st : ModelManagerState) (now : Nat) (force : Bool)
    (fetches : Nat → Except String (HttpResponse ModelsResponse)) :
    Except String (ModelManagerState × List Model × Bool) :=
  if !force
      && (match st.lastFetch with
          | some t => t != 0 && decide (now - t < cacheTimeout)
          | none => false) then
    Except.ok (st, st.models, false)
  else
    let ms := getModels fetches
    Except.ok ({ models := ms, lastFetch := some now }, ms, true)



/-! ## API-key storage cipher (`src/lib/utils.ts`)

`encrypt` derives a fixed 32-byte key by `scryptSync` from the
hard-coded passphrase, builds an all-zero 16-byte IV, and runs
`aes-256-cbc` over the UTF-8 bytes of the input; `decrypt` runs the
inverse.  The AES-256 block permutation under the fixed key is a Node
`crypto` primitive external to this repository, modelled as an
abstract block map `E` with inverse `D`; the CBC chaining with the
all-zero IV and the PKCS#7 padding that `aes-256-cbc` composes around
it are modelled concretely (the UTF-8 and hex codecs on either side
are injective byte↔text transports and are elided: the model works on
byte sequences).
-/


abbrev Byte := Fin 256

abbrev Block := Fin 16 → Byte

def zeroByte : Byte := 0

/-- `Buffer.alloc(16, 0)`: the all-zero IV. -/
def zeroIV : Block := fun _ => zeroByte

def byteXor (a b : Byte) : Byte :=
  ⟨a.val ^^^ b.val, by
    have ha : a.val < 2 ^ 8 := by simp
    have hb : b.val < 2 ^ 8 := by simp
    simpa using Nat.xor_lt_two_pow ha hb⟩

def blockXor (a b : Block) : Block := fun i => byteXor (a i) (b i)

/-- CBC encryption of a block sequence: each plaintext block is XORed
with the previous ciphertext block (the IV for the first) and pushed
through the block permutation. -/
def cbcEncryptBlocks (E : Block → Block) : Block → List Block → List Block
  | _, [] => []
  | prev, p :: ps =>
    let c := E (blockXor p prev)
    c :: cbcEncryptBlocks E c ps

/-- CBC decryption: each ciphertext block goes through the inverse
permutation and is XORed with the previous ciphertext block (the IV
for the first). -/
def cbcDecryptBlocks (D : Block → Block) : Block → List Block → List Block
  | _, [] => []
  | prev, c :: cs => blockXor (D c) prev :: cbcDecryptBlocks D c cs

/-- PKCS#7 padding: append `k = 16 - (len mod 16)` copies of the byte
`k` (`k` is between 1 and 16). -/
def padBytes (msg : List Byte) : List Byte :=
  let k := 16 - msg.length % 16
  msg ++ List.replicate k ⟨k, by omega⟩

/-- PKCS#7 unpadding: read the final byte `k` and drop the last `k`
bytes. -/
def unpadBytes (l : List Byte) : List Byte :=
  l.take (l.length - (l.reverse.headD zeroByte).val)

/-- Split a byte sequence into 16-byte blocks (the cipher is only ever
applied to sequences whose length the padding has made a multiple of
16; a final short block would be zero-extended). -/
def chunk16 (l : List Byte) : List Block :=
  if h : l = [] then []
  else (fun i : Fin 16 => l.getD i.val zeroByte) :: chunk16 (l.drop 16)
  termination_by l.length
  decreasing_by
    simp only [List.length_drop]
    have : l.length ≠ 0 := fun hlen => h (List.eq_nil_of_length_eq_zero hlen)
    omega

/-- Reassemble a block sequence into bytes. -/
def flattenBlocks : List Block → List Byte
  | [] => []
  | b :: bs => List.ofFn b ++ flattenBlocks bs

/-- `encrypt` (`src/lib/utils.ts` lines 11–20), at the byte level:
PKCS#7-pad the plaintext and run CBC with the all-zero IV over the
block permutation `E` (AES-256 under the fixed scrypt-derived key). -/
def encrypt (E : Block → Block) (msg : List Byte) : List Byte :=
  flattenBlocks (cbcEncryptBlocks E zeroIV (chunk16 (padBytes msg)))

/-- `decrypt` (`src/lib/utils.ts` lines 22–35), at the byte level:
run CBC decryption with the all-zero IV over the inverse block
permutation `D` and strip the PKCS#7 padding. -/
def decrypt (D : Block → Block) (ct : List Byte) : List Byte :=
  unpadBytes (flattenBlocks (cbcDecryptBlocks D zeroIV (chunk16 ct)))



/-! ## C1: per-model view isolation -/

/-- Membership in the engines' per-model view. -/
theorem mem_conversationForModel {conversation : List ChatMessage} {M : String}
    {msg : ChatMessage} :
    msg ∈ conversationForModel conversation M
      ↔ msg ∈ conversation ∧ (msg.role ≠ Role.assistant ∨ msg.model = some M) := by
  simp [conversationForModel, List.mem_filter]

/-- Membership in the Ink component's per-model view. -/
theorem mem_conversationForModelInk {conversation : List ChatMessage} {M : String}
    {message : String} {msg : ChatMessage} :
    msg ∈ conversationForModelInk conversation M message
      ↔ (msg ∈ conversation
            ∧ (msg.role = Role.user ∨ (msg.role = Role.assistant ∧ msg.model = some M)))
        ∨ msg = ChatMessage.userMsg message := by
  simp [conversationForModelInk, List.mem_filter, List.mem_append]

/-- The engine filter agrees with the spec's view predicate. -/
theorem conversationForModel_eq_viewForSpec (conversation : List ChatMessage)
    (model : String) :
    conversationForModel conversation model = viewForSpec conversation model := by
  unfold conversationForModel viewForSpec
  apply List.filter_congr
  intro msg _
  cases h : msg.role <;> simp [h]

/-- C1 (counterexample): the claim quantifies over every per-model view
built before sending a request, and the Ink component's builder
(`src/components/ChatInterface.tsx` lines 60–72) drops system messages:
on a conversation consisting of one system message, the view built for
model `A` does not contain that system message. -/
theorem c1_ink_drops_system_messages :
    ({ role := Role.system, content := "be terse" } : ChatMessage)
        ∈ [({ role := Role.system, content := "be terse" } : ChatMessage)]
      ∧ ({ role := Role.system, content := "be terse" } : ChatMessage)
        ∉ conversationForModelInk
            [{ role := Role.system, content := "be terse" }] "A" "hi" := by
  refine ⟨List.mem_singleton.2 rfl, ?_⟩
  intro h
  rcases mem_conversationForModelInk.1 h with ⟨_, h1 | h1⟩ | h1
  · exact absurd h1 (by decide)
  · exact absurd h1.1 (by decide)
  · have : Role.system = Role.user := congrArg ChatMessage.role h1
    exact absurd this (by decide)

/-- C1 (amended): the CLI engines' per-model view (`conversationForModel`,
used by `src/lib/chat.ts` and `src/lib/parallel-chat.ts`) contains every
user and system message of the conversation plus exactly the assistant
messages whose `model` equals `M`, in original order (it is a sublist of
the conversation and coincides with the spec's view predicate); the Ink
component's view (`conversationForModelInk`) likewise keeps every user
message and exactly model-`M` assistant messages in original order and
contains no assistant message of another model, but it omits system
messages entirely. -/
theorem c1_per_model_view (conversation : List ChatMessage) (M : String) :
    conversationForModel conversation M = viewForSpec conversation M
    ∧ (conversationForModel conversation M).Sublist conversation
    ∧ (∀ msg ∈ conversationForModel conversation M,
        msg.role = Role.assistant → msg.model = some M)
    ∧ (∀ msg ∈ conversation,
        msg.role ≠ Role.assistant → msg ∈ conversationForModel conversation M)
    ∧ (∀ message : String,
        (conversationForModelInk conversation M message).Sublist
            (conversation ++ [ChatMessage.userMsg message])
        ∧ (∀ msg ∈ conversationForModelInk conversation M message,
            msg.role = Role.assistant → msg.model = some M)
        ∧ (∀ msg ∈ conversation,
            msg.role = Role.user → msg ∈ conversationForModelInk conversation M message)
        ∧ (∀ msg ∈ conversation,
            msg.role = Role.assistant → msg.model = some M →
              msg ∈ conversationForModelInk conversation M message)
        ∧ (∀ msg ∈ conversationForModelInk conversation M message,
            msg.role ≠ Role.system)) := by
  refine ⟨conversationForModel_eq_viewForSpec conversation M, ?_, ?_, ?_, ?_⟩
  · exact List.filter_sublist conversation
  · intro msg hmem hrole
    rcases (mem_conversationForModel.1 hmem).2 with h | h
    · exact absurd hrole h
    · exact h
  · intro msg hmem hrole
    exact mem_conversationForModel.2 ⟨hmem, Or.inl hrole⟩
  · intro message
    refine ⟨?_, ?_, ?_, ?_, ?_⟩
    · exact List.Sublist.append (List.filter_sublist conversation) (List.Sublist.refl _)
    · intro msg hmem hrole
      rcases mem_conversationForModelInk.1 hmem with ⟨_, h | h⟩ | h
      · rw [hrole] at h
        exact absurd h (by decide)
      · exact h.2
      · have : msg.role = Role.user := by rw [h]; rfl
        rw [hrole] at this
        exact absurd this (by decide)
    · intro msg hmem hrole
      exact mem_conversationForModelInk.2 (Or.inl ⟨hmem, Or.inl hrole⟩)
    · intro msg hmem hrole hmodel
      exact mem_conversationForModelInk.2 (Or.inl ⟨hmem, Or.inr ⟨hrole, hmodel⟩⟩)
    · intro msg hmem hsys
      rcases mem_conversationForModelInk.1 hmem with ⟨_, h | h⟩ | h
      · rw [hsys] at h
        exact absurd h (by decide)
      · rw [hsys] at h
        exact absurd h.1 (by decide)
      · have : msg.role = Role.user := by rw [h]; rfl
        rw [hsys] at this
        exact absurd this (by decide)

theorem runTurnConv_eq_append (conv : List ChatMessage)
    (streams : String → ModelStream) (order : List String) :
    runTurnConv conv streams order = conv ++ turnAppends streams order := by
  induction order generalizing conv with
  | nil => simp [runTurnConv, turnAppends]
  | cons m rest ih =>
    unfold runTurnConv turnAppends
    cases h : (streams m).outcome with
    | none =>
      simp only [List.foldl_cons, List.filterMap_cons, h]
      rw [show (List.foldl _ _ rest = runTurnConv (conv ++ [mkAssistantMessage m streams]) streams rest) from rfl]
      rw [ih]
      simp [turnAppends]
    | some e =>
      simp only [List.foldl_cons, List.filterMap_cons, h]
      rw [show (List.foldl _ _ rest = runTurnConv conv streams rest) from rfl]
      rw [ih]
      simp [turnAppends]

/-! ## C2: partial failure independence -/

/-- C2: in a turn over `{A, B}` where `A`'s stream fails at some point
and `B`'s completes, whichever of the two settles first: the final
conversation is exactly the pre-turn log plus `B`'s finalized assistant
message (so no assistant message for `A` is appended), the only
appended message is attributed to `B` and not to `A`, `A`'s
accumulator ends `{ isStreaming: false, error }` with an error string,
`B`'s ends with its full content, and the settled outcome set — one
entry per model, delivered only after both tasks settle — has an error
entry for `A` and a full content entry for `B`. -/
theorem c2_partial_failure (conv : List ChatMessage)
    (streams : String → ModelStream) (A B err : String)
    (chunksA chunksB : List String)
    (hAB : A ≠ B)
    (hA : streams A = { chunks := chunksA, outcome := some err })
    (hB : streams B = { chunks := chunksB, outcome := none }) :
    (∀ order : List String, order = [A, B] ∨ order = [B, A] →
        runTurnConv conv streams order = conv ++ [mkAssistantMessage B streams])
    ∧ (mkAssistantMessage B streams).model = some B
    ∧ (mkAssistantMessage B streams).model ≠ some A
    ∧ finalStreamingData streams A
        = { content := "", isStreaming := false, error := some err }
    ∧ finalStreamingData streams B
        = { content := String.join chunksB, isStreaming := false, error := none }
    ∧ runTurnOutcomes [A, B] streams
        = [{ model := A, content := "", error := some err },
           { model := B, content := String.join chunksB, error := none }] := by
  refine ⟨?_, rfl, ?_, ?_, ?_, ?_⟩
  · rintro order (rfl | rfl) <;>
      simp [runTurnConv_eq_append, turnAppends, hA, hB]
  · simp [mkAssistantMessage]
    intro h
    exact hAB h.symm
  · simp [finalStreamingData, hA]
  · simp [finalStreamingData, hB]
  · simp [runTurnOutcomes, hA, hB]

/-- Witness for `c2_partial_failure` at a concrete turn: model `"A"`
fails with `"boom"` after one chunk, model `"B"` streams `"he"`,
`"llo"` and completes. -/
theorem c2_partial_failure_witness :
    (∀ order : List String, order = ["A", "B"] ∨ order = ["B", "A"] →
        runTurnConv [ChatMessage.userMsg "q"]
          (fun m => if m = "A" then { chunks := ["x"], outcome := some "boom" }
                    else { chunks := ["he", "llo"], outcome := none })
          order
        = [ChatMessage.userMsg "q"]
            ++ [mkAssistantMessage "B"
                  (fun m => if m = "A" then { chunks := ["x"], outcome := some "boom" }
                            else { chunks := ["he", "llo"], outcome := none })])
    ∧ (mkAssistantMessage "B"
        (fun m => if m = "A" then { chunks := ["x"], outcome := some "boom" }
                  else { chunks := ["he", "llo"], outcome := none })).model = some "B"
    ∧ (mkAssistantMessage "B"
        (fun m => if m = "A" then { chunks := ["x"], outcome := some "boom" }
                  else { chunks := ["he", "llo"], outcome := none })).model ≠ some "A"
    ∧ finalStreamingData
        (fun m => if m = "A" then { chunks := ["x"], outcome := some "boom" }
                  else { chunks := ["he", "llo"], outcome := none }) "A"
        = { content := "", isStreaming := false, error := some "boom" }
    ∧ finalStreamingData
        (fun m => if m = "A" then { chunks := ["x"], outcome := some "boom" }
                  else { chunks := ["he", "llo"], outcome := none }) "B"
        = { content := String.join ["he", "llo"], isStreaming := false, error := none }
    ∧ runTurnOutcomes ["A", "B"]
        (fun m => if m = "A" then { chunks := ["x"], outcome := some "boom" }
                  else { chunks := ["he", "llo"], outcome := none })
        = [{ model := "A", content := "", error := some "boom" },
           { model := "B", content := String.join ["he", "llo"], error := none }] :=
  c2_partial_failure [ChatMessage.userMsg "q"] _ "A" "B" "boom" ["x"] ["he", "llo"]
    (by decide) rfl rfl

/-! ## C6: effect of completion order -/

/-- Every message in the filtered turn appends for model `M` is `M`'s
own finalized assistant message. -/
theorem filter_turnAppends_all_eq (streams : String → ModelStream)
    (order : List String) (M : String) :
    ∀ msg ∈ (turnAppends streams order).filter
        (fun msg => msg.role != Role.assistant || msg.model == some M),
      msg = mkAssistantMessage M streams := by
  intro msg hmem
  have hmem' := List.mem_filter.1 hmem
  rcases List.mem_filterMap.1 hmem'.1 with ⟨m, _, hm⟩
  have hmsg : msg = mkAssistantMessage m streams := by
    cases h : (streams m).outcome with
    | none => rw [h] at hm; exact (Option.some.inj hm).symm
    | some e => rw [h] at hm; exact absurd hm (by simp)
  have hkeep := hmem'.2
  rw [hmsg] at hkeep ⊢
  simp [mkAssistantMessage] at hkeep
  rw [hkeep]

/-- C6 (counterexample): with both models succeeding, the two
completion orders produce different final conversation logs — the
assistant messages are appended in completion order, so completing
`"B"` first puts `"B"`'s message before `"A"`'s. -/
theorem c6_completion_order_changes_log :
    runTurnConv [ChatMessage.userMsg "q"]
        (fun m => if m = "A" then { chunks := ["a"], outcome := none }
                  else { chunks := ["b"], outcome := none })
        ["A", "B"]
      ≠ runTurnConv [ChatMessage.userMsg "q"]
          (fun m => if m = "A" then { chunks := ["a"], outcome := none }
                    else { chunks := ["b"], outcome := none })
          ["B", "A"] := by
  decide

/-- C6 (amended): completion order is commutative up to the relative
order of the sibling assistant appends: for any two completion orders
that are permutations of one another, the final conversations are
permutations of each other (same user message and same finalized
assistant messages, differing only in the order of the appended
sibling entries), and every model's per-model view of the final
conversation — the history any later request is built from — is
literally identical.  As ordered logs the conversations differ, per
the counterexample. -/
theorem c6_completion_order_commutes (conv : List ChatMessage)
    (streams : String → ModelStream) (order₁ order₂ : List String)
    (h : order₁.Perm order₂) :
    (runTurnConv conv streams order₁).Perm (runTurnConv conv streams order₂)
    ∧ ∀ M : String,
        conversationForModel (runTurnConv conv streams order₁) M
          = conversationForModel (runTurnConv conv streams order₂) M := by
  constructor
  · rw [runTurnConv_eq_append, runTurnConv_eq_append]
    exact ((h.filterMap _)).append_left conv
  · intro M
    rw [runTurnConv_eq_append, runTurnConv_eq_append]
    unfold conversationForModel
    rw [List.filter_append, List.filter_append]
    have hperm : ((turnAppends streams order₁).filter
          (fun msg => msg.role != Role.assistant || msg.model == some M)).Perm
        ((turnAppends streams order₂).filter
          (fun msg => msg.role != Role.assistant || msg.model == some M)) :=
      (h.filterMap _).filter _
    have h1 := List.eq_replicate_of_mem (filter_turnAppends_all_eq streams order₁ M)
    have h2 := List.eq_replicate_of_mem (filter_turnAppends_all_eq streams order₂ M)
    rw [h1, h2, hperm.length_eq]

/-- Witness for `c6_completion_order_commutes` at the concrete turn of
the counterexample: orders `["A", "B"]` and `["B", "A"]`. -/
theorem c6_completion_order_commutes_witness :
    (runTurnConv [ChatMessage.userMsg "q"]
        (fun m => if m = "A" then { chunks := ["a"], outcome := none }
                  else { chunks := ["b"], outcome := none })
        ["A", "B"]).Perm
      (runTurnConv [ChatMessage.userMsg "q"]
        (fun m => if m = "A" then { chunks := ["a"], outcome := none }
                  else { chunks := ["b"], outcome := none })
        ["B", "A"])
    ∧ ∀ M : String,
        conversationForModel
            (runTurnConv [ChatMessage.userMsg "q"]
              (fun m => if m = "A" then { chunks := ["a"], outcome := none }
                        else { chunks := ["b"], outcome := none })
              ["A", "B"]) M
          = conversationForModel
              (runTurnConv [ChatMessage.userMsg "q"]
                (fun m => if m = "A" then { chunks := ["a"], outcome := none }
                          else { chunks := ["b"], outcome := none })
                ["B", "A"]) M :=
  c6_completion_order_commutes [ChatMessage.userMsg "q"] _ ["A", "B"] ["B", "A"]
    (List.Perm.swap "B" "A" [])

/-- One loop iteration seeing a non-2xx, non-429 response: the raised
`ApiError` is caught, recorded in `lastError`, and the loop goes on. -/
theorem makeRequestFrom_apiError_step {α : Type}
    (fetches : Nat → Except String (HttpResponse α))
    (remaining attempt : Nat) (lastError : Option String) (resp : HttpResponse α)
    (hf : fetches attempt = Except.ok resp)
    (hok : responseOk resp.status = false) (h429 : resp.status ≠ 429) :
    makeRequestFrom fetches (remaining + 1) attempt lastError
      = { result := (makeRequestFrom fetches remaining (attempt + 1)
              (some (apiErrorMsg resp.status resp.body))).result,
          attempts := (makeRequestFrom fetches remaining (attempt + 1)
              (some (apiErrorMsg resp.status resp.body))).attempts + 1,
          totalWaitMs := (makeRequestFrom fetches remaining (attempt + 1)
                (some (apiErrorMsg resp.status resp.body))).totalWaitMs
              + (if attempt < MAX_RETRIES - 1
                  then INITIAL_RETRY_DELAY * 2 ^ attempt else 0) } := by
  simp only [makeRequestFrom, hf]
  simp [h429, hok]

/-- One loop iteration seeing a 429 response: wait the computed
backoff and continue; `lastError` is untouched. -/
theorem makeRequestFrom_429_step {α : Type}
    (fetches : Nat → Except String (HttpResponse α))
    (remaining attempt : Nat) (lastError : Option String) (resp : HttpResponse α)
    (hf : fetches attempt = Except.ok resp)
    (h429 : resp.status = 429) :
    makeRequestFrom fetches (remaining + 1) attempt lastError
      = { result := (makeRequestFrom fetches remaining (attempt + 1) lastError).result,
          attempts := (makeRequestFrom fetches remaining (attempt + 1) lastError).attempts + 1,
          totalWaitMs := (makeRequestFrom fetches remaining (attempt + 1) lastError).totalWaitMs
              + backoff429 resp.retryAfter attempt } := by
  simp only [makeRequestFrom, hf]
  simp [h429]

/-- One loop iteration seeing a 2xx response: return the JSON payload
at once. -/
theorem makeRequestFrom_ok_step {α : Type}
    (fetches : Nat → Except String (HttpResponse α))
    (remaining attempt : Nat) (lastError : Option String) (resp : HttpResponse α)
    (hf : fetches attempt = Except.ok resp)
    (hok : responseOk resp.status = true) :
    makeRequestFrom fetches (remaining + 1) attempt lastError
      = { result := Except.ok resp.json, attempts := 1, totalWaitMs := 0 } := by
  have h429 : resp.status ≠ 429 := by
    unfold responseOk at hok
    simp at hok
    omega
  simp only [makeRequestFrom, hf]
  simp [h429, hok]

/-! ## C3: non-2xx, non-429 responses -/

/-- C3 (counterexample): a transport that always answers HTTP 400 does
not make `makeRequest` fail immediately after one attempt — the raised
`ApiError` is caught by the generic retry handler, the request is
retried with exponential backoff, and only after 3 attempts (having
waited 1000 + 2000 ms) does the call fail with the last `ApiError`. -/
theorem c3_api_error_is_retried_counterexample :
    makeRequest (fun _ => Except.ok
        ({ status := 400, body := "Bad Request", json := "payload" } : HttpResponse String))
      = { result := Except.error "API Error (400): Bad Request",
          attempts := 3, totalWaitMs := 3000 } := by
  rfl

/-- C3 (amended): for every HTTP response whose status is neither 2xx
nor 429, `makeRequest` raises an `ApiError` carrying the status code
and response body, but the error is caught by the retry loop's generic
handler and the call is retried; with such responses on all three
attempts the call makes exactly `MAX_RETRIES = 3` attempts, waits
`1000 + 2000` ms of exponential backoff, and finally fails with the
last attempt's `ApiError` (status code and body). -/
theorem c3_non2xx_non429_is_retried {α : Type}
    (fetches : Nat → Except String (HttpResponse α)) (resp : Nat → HttpResponse α)
    (hf : ∀ i, i < MAX_RETRIES → fetches i = Except.ok (resp i))
    (hok : ∀ i, i < MAX_RETRIES → responseOk (resp i).status = false)
    (h429 : ∀ i, i < MAX_RETRIES → (resp i).status ≠ 429) :
    makeRequest fetches
      = { result := Except.error (apiErrorMsg (resp 2).status (resp 2).body),
          attempts := 3, totalWaitMs := 3000 } := by
  show makeRequestFrom fetches 3 0 none = _
  rw [show (3 : Nat) = 2 + 1 from rfl,
    makeRequestFrom_apiError_step fetches 2 0 none (resp 0)
      (hf 0 (by decide)) (hok 0 (by decide)) (h429 0 (by decide)),
    show (2 : Nat) = 1 + 1 from rfl,
    makeRequestFrom_apiError_step fetches 1 1 _ (resp 1)
      (hf 1 (by decide)) (hok 1 (by decide)) (h429 1 (by decide)),
    show (1 : Nat) = 0 + 1 from rfl,
    makeRequestFrom_apiError_step fetches 0 2 _ (resp 2)
      (hf 2 (by decide)) (hok 2 (by decide)) (h429 2 (by decide))]
  simp [makeRequestFrom, MAX_RETRIES, INITIAL_RETRY_DELAY]

/-- Witness for `c3_non2xx_non429_is_retried`: the constant
HTTP 400 transport of the counterexample. -/
theorem c3_non2xx_non429_is_retried_witness :
    makeRequest (fun _ => Except.ok
        ({ status := 400, body := "nope", json := (0 : Nat) } : HttpResponse Nat))
      = { result := Except.error
            (apiErrorMsg
              ({ status := 400, body := "nope", json := (0 : Nat) } : HttpResponse Nat).status
              ({ status := 400, body := "nope", json := (0 : Nat) } : HttpResponse Nat).body),
          attempts := 3, totalWaitMs := 3000 } :=
  c3_non2xx_non429_is_retried
    (fun _ => Except.ok ({ status := 400, body := "nope", json := (0 : Nat) } : HttpResponse Nat))
    (fun _ => { status := 400, body := "nope", json := (0 : Nat) })
    (fun _ _ => rfl) (fun _ _ => rfl) (fun _ _ => (by decide : (400 : Nat) ≠ 429))

/-! ## C4: 429 retry/backoff bound -/

/-- C4 (counterexample): a transport that returns 429 on the first
three attempts and would succeed on a fourth does not produce a
successful result: `MAX_RETRIES = 3` caps the loop at 3 attempts, so
after three 429s (having waited 1000 + 2000 + 4000 ms of exponential
backoff) the call fails with `'Request failed after maximum retries'`
and the would-be successful attempt is never issued. -/
theorem c4_three_429_then_success_fails :
    makeRequest (fun i =>
        if i < 3
          then Except.ok ({ status := 429, json := "payload" } : HttpResponse String)
          else Except.ok ({ status := 200, json := "payload" } : HttpResponse String))
      = { result := Except.error "Request failed after maximum retries",
          attempts := 3, totalWaitMs := 7000 } := by
  rfl

/-- C4 (amended): the loop makes at most 3 attempts.  If the transport
returns 429 on all three attempts, the call makes exactly 3 attempts,
waits exactly the sum of the three computed backoff delays (the
`Retry-After` value when present, else the base delay doubled each
attempt) and fails with `'Request failed after maximum retries'` — it
never returns a successful result, even if a fourth attempt would have
succeeded.  If instead the transport returns 429 twice and then a 2xx
response, the call returns exactly one successful result on the third
attempt, with total wait equal to the sum of the two computed backoff
delays. -/
theorem c4_retry_backoff_bound {α : Type}
    (fetches : Nat → Except String (HttpResponse α)) (r0 r1 r2 : HttpResponse α)
    (hf0 : fetches 0 = Except.ok r0) (h0 : r0.status = 429)
    (hf1 : fetches 1 = Except.ok r1) (h1 : r1.status = 429)
    (hf2 : fetches 2 = Except.ok r2) :
    (r2.status = 429 →
        makeRequest fetches
          = { result := Except.error "Request failed after maximum retries",
              attempts := 3,
              totalWaitMs := backoff429 r0.retryAfter 0 + backoff429 r1.retryAfter 1
                  + backoff429 r2.retryAfter 2 })
    ∧ (responseOk r2.status = true →
        makeRequest fetches
          = { result := Except.ok r2.json,
              attempts := 3,
              totalWaitMs := backoff429 r0.retryAfter 0 + backoff429 r1.retryAfter 1 }) := by
  constructor
  · intro h2
    show makeRequestFrom fetches 3 0 none = _
    rw [show (3 : Nat) = 2 + 1 from rfl,
      makeRequestFrom_429_step fetches 2 0 none r0 hf0 h0,
      show (2 : Nat) = 1 + 1 from rfl,
      makeRequestFrom_429_step fetches 1 1 none r1 hf1 h1,
      show (1 : Nat) = 0 + 1 from rfl,
      makeRequestFrom_429_step fetches 0 2 none r2 hf2 h2]
    simp [makeRequestFrom]
    omega
  · intro h2
    show makeRequestFrom fetches 3 0 none = _
    rw [show (3 : Nat) = 2 + 1 from rfl,
      makeRequestFrom_429_step fetches 2 0 none r0 hf0 h0,
      show (2 : Nat) = 1 + 1 from rfl,
      makeRequestFrom_429_step fetches 1 1 none r1 hf1 h1,
      show (1 : Nat) = 0 + 1 from rfl,
      makeRequestFrom_ok_step fetches 0 2 none r2 hf2 h2]
    simp
    omega

/-- Witness for `c4_retry_backoff_bound`: a transport answering 429
(with no `Retry-After` header) on attempts 0 and 1 and HTTP 200 on
attempt 2. -/
theorem c4_retry_backoff_bound_witness :
    ((({ status := 200, json := "payload" } : HttpResponse String).status = 429 →
        makeRequest (fun i =>
            if i < 2
              then Except.ok ({ status := 429, json := "payload" } : HttpResponse String)
              else Except.ok ({ status := 200, json := "payload" } : HttpResponse String))
          = { result := Except.error "Request failed after maximum retries",
              attempts := 3,
              totalWaitMs := backoff429 none 0 + backoff429 none 1 + backoff429 none 2 })
      ∧ (responseOk ({ status := 200, json := "payload" } : HttpResponse String).status = true →
          makeRequest (fun i =>
              if i < 2
                then Except.ok ({ status := 429, json := "payload" } : HttpResponse String)
                else Except.ok ({ status := 200, json := "payload" } : HttpResponse String))
            = { result := Except.ok "payload",
                attempts := 3,
                totalWaitMs := backoff429 none 0 + backoff429 none 1 })) :=
  c4_retry_backoff_bound
    (fun i =>
      if i < 2
        then Except.ok ({ status := 429, json := "payload" } : HttpResponse String)
        else Except.ok ({ status := 200, json := "payload" } : HttpResponse String))
    { status := 429, json := "payload" } { status := 429, json := "payload" }
    { status := 200, json := "payload" }
    rfl rfl rfl rfl rfl

theorem processLines_skip {parse : String → Option StreamChunkShape}
    {line : String} (h : processLine parse line = LineEffect.skip)
    (rest : List String) :
    processLines parse (line :: rest) = processLines parse rest := by
  simp [processLines, h]

theorem processLines_token {parse : String → Option StreamChunkShape}
    {line c : String} (h : processLine parse line = LineEffect.token c)
    (rest : List String) :
    processLines parse (line :: rest)
      = ((c :: (processLines parse rest).1), (processLines parse rest).2) := by
  simp [processLines, h]

theorem processLines_done {parse : String → Option StreamChunkShape}
    {line : String} (h : processLine parse line = LineEffect.done)
    (rest : List String) :
    processLines parse (line :: rest) = ([], true) := by
  simp [processLines, h]

/-- Processing a run of valid token lines prepends their tokens. -/
theorem processLines_token_run {parse : String → Option StreamChunkShape}
    {lines : List String} {tokens : List String}
    (h : List.Forall₂ (fun l t => processLine parse l = LineEffect.token t) lines tokens)
    (rest : List String) :
    processLines parse (lines ++ rest)
      = (tokens ++ (processLines parse rest).1, (processLines parse rest).2) := by
  induction h with
  | nil => simp
  | cons hlt _ ih =>
    rw [List.cons_append, processLines_token hlt, ih]
    simp

/-! ## C5: malformed stream-fragment resilience -/

/-- Any `data: ` line whose payload fails to JSON-parse (and is not the
sentinel) is skipped: the `catch` around the chunk decoding logs and
continues.  (Lines that fail the earlier guards are skipped too.) -/
theorem processLine_skip_of_parse_failure
    (parse : String → Option StreamChunkShape) (line : String)
    (hparse : parse (jsSlice line 6) = none) (hnd : jsSlice line 6 ≠ "[DONE]") :
    processLine parse line = LineEffect.skip := by
  unfold processLine
  split
  · rfl
  split
  · rfl
  split
  · rw [if_neg hnd, hparse]
  · rfl

/-- The sentinel line ends the sequence cleanly, whatever the parse
oracle. -/
theorem processLine_done (parse : String → Option StreamChunkShape) :
    processLine parse "data: [DONE]" = LineEffect.done := by
  rfl

/-- C5: an event stream holding one malformed data line (its payload
fails to JSON-parse) among otherwise-valid token fragments yields
exactly the concatenation, in order, of the tokens decoded from the
valid fragments; the malformed line is skipped without surfacing any
error to the consumer, and the `[DONE]` sentinel line ends the
sequence cleanly (`true` = generator returned, not threw), ignoring
anything after it. -/
theorem c5_malformed_fragment_resilience
    (parse : String → Option StreamChunkShape)
    (pre post : List String) (preTokens postTokens : List String)
    (bad : String) (rest : List String)
    (hpre : List.Forall₂
        (fun l t => processLine parse l = LineEffect.token t) pre preTokens)
    (hpost : List.Forall₂
        (fun l t => processLine parse l = LineEffect.token t) post postTokens)
    (hbadParse : parse (jsSlice bad 6) = none)
    (hbadNotDone : jsSlice bad 6 ≠ "[DONE]") :
    processLines parse (pre ++ (bad :: (post ++ ("data: [DONE]" :: rest))))
      = (preTokens ++ postTokens, true) := by
  rw [processLines_token_run hpre,
    processLines_skip (processLine_skip_of_parse_failure parse bad hbadParse hbadNotDone),
    processLines_token_run hpost,
    processLines_done (processLine_done parse)]
  simp

/-- Witness for `c5_malformed_fragment_resilience`: two valid fragments
decoding to `"Hel"` and `"lo"` around one malformed line, then the
sentinel, then a trailing ignored line. -/
theorem c5_malformed_fragment_resilience_witness :
    processLines
        (fun s =>
          if s = "one" then some { choices := [{ delta := some { content := some "Hel" } }] }
          else if s = "two" then some { choices := [{ delta := some { content := some "lo" } }] }
          else none)
        (["data: one"] ++ ("data: <<<not json>>>" :: (["data: two"]
            ++ ("data: [DONE]" :: ["data: one"]))))
      = (["Hel"] ++ ["lo"], true) :=
  c5_malformed_fragment_resilience _ ["data: one"] ["data: two"] ["Hel"] ["lo"]
    "data: <<<not json>>>" ["data: one"]
    (List.Forall₂.cons (by decide) List.Forall₂.nil)
    (List.Forall₂.cons (by decide) List.Forall₂.nil)
    (by decide) (by decide)

/-! ## C9: yielded tokens are never empty -/

/-- A line only ever contributes a non-empty token: the `if (content)`
truthiness guard drops an absent delta content and the empty string
alike. -/
theorem processLine_token_ne_empty {parse : String → Option StreamChunkShape}
    {line c : String} (h : processLine parse line = LineEffect.token c) :
    c ≠ "" := by
  simp only [processLine] at h
  repeat' split at h
  all_goals simp_all

/-- C9: every token the streaming generator yields to its consumer is
a non-empty string — fragments whose decoded delta content is absent
or empty are consumed without yielding. -/
theorem c9_yielded_tokens_nonempty (parse : String → Option StreamChunkShape)
    (lines : List String) :
    ∀ t ∈ (processLines parse lines).1, t ≠ "" := by
  induction lines with
  | nil => simp [processLines]
  | cons line rest ih =>
    cases h : processLine parse line with
    | done => rw [processLines_done h]; simp
    | skip => rw [processLines_skip h]; exact ih
    | token c =>
      rw [processLines_token h]
      intro t ht
      rcases List.mem_cons.1 ht with rfl | ht
      · exact processLine_token_ne_empty h
      · exact ih t ht

/-- Witness for `c9_yielded_tokens_nonempty` at a concrete stream that
yields the token `"Hi"`. -/
theorem c9_yielded_tokens_nonempty_witness : "Hi" ≠ "" :=
  c9_yielded_tokens_nonempty
    (fun s =>
      if s = "one" then some { choices := [{ delta := some { content := some "Hi" } }] }
      else none)
    ["data: one"] "Hi" (by decide)

/-! ## C7: the request carries the profile's sampling parameters -/

/-- C7 (code bug): for the legal profile
`{ models: ["m"], temperature: 0, maxTokens: 100 }` — temperature 0 is
inside the documented and validated range `[0,2]` — the request body
the engine opens carries temperature `0.7`, not the profile's `0`:
`options.temperature || 0.7` treats the number `0` as absent.  The
model id and `maxTokens` are carried exactly, and for any non-zero
temperature the profile's value is carried exactly, so the defaulting
of `0` is the lone divergence. -/
theorem c7_temperature_zero_is_replaced :
    (engineRequestBody { models := ["m"], temperature := 0, maxTokens := 100 } "m"
        [ChatMessage.userMsg "q"]).temperature = 7 / 10
    ∧ (7 / 10 : ℚ) ≠ 0
    ∧ (engineRequestBody { models := ["m"], temperature := 0, maxTokens := 100 } "m"
        [ChatMessage.userMsg "q"]).max_tokens = 100
    ∧ (engineRequestBody { models := ["m"], temperature := 0, maxTokens := 100 } "m"
        [ChatMessage.userMsg "q"]).model = "m"
    ∧ (∀ profile : Profile, ∀ model : String, ∀ view : List ChatMessage,
        profile.temperature ≠ 0 → profile.maxTokens ≠ 0 →
          (engineRequestBody profile model view).temperature = profile.temperature
          ∧ (engineRequestBody profile model view).max_tokens = profile.maxTokens
          ∧ (engineRequestBody profile model view).model = model
          ∧ (engineRequestBody profile model view).messages = view
          ∧ (engineRequestBody profile model view).stream = true) := by
  refine ⟨?_, by norm_num, ?_, rfl, ?_⟩
  · simp [engineRequestBody, streamChatBody, engineStreamOptions, jsNumOr]
  · simp [engineRequestBody, streamChatBody, engineStreamOptions, jsNumOr]
  · intro profile model view htemp hmax
    refine ⟨?_, ?_, rfl, rfl, rfl⟩ <;>
      simp [engineRequestBody, streamChatBody, engineStreamOptions, jsNumOr, htemp, hmax]

/-! ## C8: cache behaviour and failure propagation -/

/-- C8 (counterexample): with an empty cache and a transport whose
every fetch attempt rejects with `'network down'`, `fetchModels` does
not propagate the failure as an error: `OpenRouterClient.getModels`
catches it and returns `[]`, so `fetchModels` resolves successfully
with the substitute empty list (and caches it). -/
theorem c8_fetch_failure_swallowed :
    fetchModels { models := [{ id := "old" }], lastFetch := none } 5 false
        (fun _ => Except.error "network down")
      = Except.ok ({ models := [], lastFetch := some 5 }, [], true) := by
  rfl

/-- C8 (amended): the cache half of the claim holds — a cache younger
than the 5-minute timeout is returned without any network fetch when
force-refresh is off, and a stale cache or a forced call refetches —
but the failure half does not: when the underlying fetch fails,
`getModels` swallows the error and returns `[]`, so `fetchModels`
resolves successfully with (and caches) the substitute empty list
instead of propagating an error; `fetchModels` never rejects. -/
theorem c8_cache_fresh_and_failure_swallowed (st : ModelManagerState)
    (now t : Nat) (force : Bool)
    (fetches : Nat → Except String (HttpResponse ModelsResponse))
    (hlf : st.lastFetch = some t) (ht : t ≠ 0) :
    (now - t < cacheTimeout →
        fetchModels st now false fetches = Except.ok (st, st.models, false))
    ∧ (¬(now - t < cacheTimeout) →
        fetchModels st now false fetches
          = Except.ok ({ models := getModels fetches, lastFetch := some now },
              getModels fetches, true))
    ∧ fetchModels st now true fetches
        = Except.ok ({ models := getModels fetches, lastFetch := some now },
            getModels fetches, true)
    ∧ (∀ e : String, (makeRequest fetches).result = Except.error e →
        getModels fetches = [])
    ∧ (∀ e : String, fetchModels st now force fetches ≠ Except.error e) := by
  refine ⟨?_, ?_, ?_, ?_, ?_⟩
  · intro hfresh
    simp [fetchModels, hlf, ht, hfresh]
  · intro hstale
    simp [fetchModels, hlf, hstale]
  · simp [fetchModels]
  · intro e he
    simp [getModels, he]
  · intro e
    unfold fetchModels
    split <;> simp

/-- Witness for `c8_cache_fresh_and_failure_swallowed`: a one-entry
cache written at time 1, queried at time 2, against the failing
transport of the counterexample. -/
theorem c8_cache_fresh_and_failure_swallowed_witness :
    ((2 - 1 < cacheTimeout →
        fetchModels { models := [{ id := "old" }], lastFetch := some 1 } 2 false
            (fun _ => Except.error "network down")
          = Except.ok ({ models := [{ id := "old" }], lastFetch := some 1 },
              [{ id := "old" }], false))
      ∧ (¬(2 - 1 < cacheTimeout) →
          fetchModels { models := [{ id := "old" }], lastFetch := some 1 } 2 false
              (fun _ => Except.error "network down")
            = Except.ok ({ models := getModels (fun _ => Except.error "network down"),
                             lastFetch := some 2 },
                getModels (fun _ => Except.error "network down"), true))
      ∧ fetchModels { models := [{ id := "old" }], lastFetch := some 1 } 2 true
            (fun _ => Except.error "network down")
          = Except.ok ({ models := getModels (fun _ => Except.error "network down"),
                           lastFetch := some 2 },
              getModels (fun _ => Except.error "network down"), true)
      ∧ (∀ e : String,
          (makeRequest ((fun _ => Except.error "network down") :
              Nat → Except String (HttpResponse ModelsResponse))).result = Except.error e →
            getModels (fun _ => Except.error "network down") = [])
      ∧ (∀ e : String,
          fetchModels { models := [{ id := "old" }], lastFetch := some 1 } 2 false
              (fun _ => Except.error "network down") ≠ Except.error e)) :=
  c8_cache_fresh_and_failure_swallowed
    { models := [{ id := "old" }], lastFetch := some 1 } 2 1 false
    (fun _ => Except.error "network down") rfl (by decide)

theorem byteXor_cancel_right (p c : Byte) : byteXor (byteXor p c) c = p := by
  unfold byteXor
  apply Fin.ext
  simp [Nat.xor_assoc]

theorem blockXor_cancel_right (p c : Block) : blockXor (blockXor p c) c = p := by
  funext i
  exact byteXor_cancel_right (p i) (c i)

theorem cbcDecrypt_cbcEncrypt (E D : Block → Block)
    (hED : ∀ b, D (E b) = b) (prev : Block) (ps : List Block) :
    cbcDecryptBlocks D prev (cbcEncryptBlocks E prev ps) = ps := by
  induction ps generalizing prev with
  | nil => rfl
  | cons p ps ih =>
    simp only [cbcEncryptBlocks, cbcDecryptBlocks, hED, blockXor_cancel_right]
    exact congrArg _ (ih _)

theorem unpad_append_replicate (msg : List Byte) (k : Nat) (b : Byte)
    (hb : b.val = k) (hk : 1 ≤ k) :
    unpadBytes (msg ++ List.replicate k b) = msg := by
  unfold unpadBytes
  have h1 : (msg ++ List.replicate k b).reverse.headD zeroByte = b := by
    rw [List.reverse_append, List.reverse_replicate]
    cases k with
    | zero => omega
    | succ n => simp [List.replicate_succ]
  rw [h1, hb]
  have h2 : (msg ++ List.replicate k b).length = msg.length + k := by simp
  rw [h2, Nat.add_sub_cancel]
  exact List.take_left msg (List.replicate k b)

theorem unpadBytes_padBytes (msg : List Byte) :
    unpadBytes (padBytes msg) = msg := by
  unfold padBytes
  exact unpad_append_replicate msg (16 - msg.length % 16) _ rfl (by omega)

theorem chunk16_flattenBlocks (bs : List Block) :
    chunk16 (flattenBlocks bs) = bs := by
  induction bs with
  | nil => simp [flattenBlocks, chunk16]
  | cons b rest ih =>
    show chunk16 (List.ofFn b ++ flattenBlocks rest) = b :: rest
    rw [chunk16]
    have hne : ¬(List.ofFn b ++ flattenBlocks rest = []) := by simp
    rw [dif_neg hne]
    have hhead : (fun i : Fin 16 =>
        (List.ofFn b ++ flattenBlocks rest).getD i.val zeroByte) = b := by
      funext i
      rw [List.getD_append _ _ _ _ (by simp),
        List.getD_eq_getElem _ _ (by simp)]
      rw [List.getElem_ofFn]
    have hdrop : (List.ofFn b ++ flattenBlocks rest).drop 16 = flattenBlocks rest := by
      simp
    rw [hhead, hdrop, ih]

theorem flattenBlocks_chunk16 (l : List Byte) (h : 16 ∣ l.length) :
    flattenBlocks (chunk16 l) = l := by
  induction l using chunk16.induct with
  | case1 => simp [chunk16, flattenBlocks]
  | case2 l hnil ih =>
    rw [chunk16, dif_neg hnil]
    show List.ofFn _ ++ flattenBlocks (chunk16 (l.drop 16)) = l
    have hlen : 16 ≤ l.length := by
      rcases h with ⟨c, hc⟩
      have : l.length ≠ 0 := fun hlen => hnil (List.eq_nil_of_length_eq_zero hlen)
      omega
    have hdvd : 16 ∣ (l.drop 16).length := by
      simp only [List.length_drop]
      exact (Nat.dvd_sub' h (dvd_refl 16))
    rw [ih hdvd]
    have hofn : List.ofFn (fun i : Fin 16 => l.getD i.val zeroByte) = l.take 16 := by
      apply List.ext_getElem
      · simp [hlen]
      · intro i h1 h2
        rw [List.getElem_ofFn]
        rw [List.getD_eq_getElem _ _ (by simp at h1 ⊢; omega)]
        simp
    rw [hofn, List.take_append_drop]

/-- The padded plaintext always has length a multiple of 16. -/
theorem padBytes_length_dvd (msg : List Byte) : 16 ∣ (padBytes msg).length := by
  unfold padBytes
  simp only [List.length_append, List.length_replicate]
  omega

/-! ## C10: `decrypt (encrypt s) = s` -/

/-- C10: with the fixed key and the all-zero IV, the storage cipher is
deterministic (it is a function of the plaintext alone) and the paired
`decrypt` inverts `encrypt` exactly on every byte sequence — in
particular `encrypt` is injective, so the scheme is a bijection onto
its range.  `E` is the AES-256 block permutation under the fixed key
and `D` its inverse (the defining property of the library cipher). -/
theorem c10_decrypt_encrypt (E D : Block → Block)
    (hED : ∀ b, D (E b) = b) :
    (∀ msg : List Byte, decrypt D (encrypt E msg) = msg)
    ∧ ∀ m1 m2 : List Byte, encrypt E m1 = encrypt E m2 → m1 = m2 := by
  have hround : ∀ msg : List Byte, decrypt D (encrypt E msg) = msg := by
    intro msg
    unfold encrypt decrypt
    rw [chunk16_flattenBlocks, cbcDecrypt_cbcEncrypt E D hED,
      flattenBlocks_chunk16 _ (padBytes_length_dvd msg), unpadBytes_padBytes]
  refine ⟨hround, ?_⟩
  intro m1 m2 h
  have := congrArg (decrypt D) h
  rwa [hround, hround] at this

/-- Witness for `c10_decrypt_encrypt` with the identity block
permutation and the plaintext bytes `[104, 105]`. -/
theorem c10_decrypt_encrypt_witness :
    decrypt (fun b => b) (encrypt (fun b => b) [104, 105]) = [104, 105] :=
  (c10_decrypt_encrypt (fun b => b) (fun b => b) (fun _ => rfl)).1 [104, 105]
